import Mathlib

/-!
Verification of `src/json_to_duckdb.py`: a one-shot ETL script that loads a
top-level JSON dictionary into a DuckDB table.  This file gives a shallow
embedding of the script's data model and operations and proves the spec's
claims about them.

Modelling conventions:
* Python/JSON values are the inductive `JVal`; Python floats are carried as
  rationals (no float arithmetic happens anywhere in the script).
* Python `dict`s are association lists with insertion-order semantics:
  assignment to an existing key updates in place (keeping its position),
  assignment to a fresh key appends (`dictInsert`).
* The DuckDB database file is a finite map from table name to `Table`;
  a stored row is the association list pairing each table column with the
  cell stored there.
-/

set_option autoImplicit false

namespace JsonToDuckdb

/-- A parsed JSON / Python value as produced by `json.loads`. -/
inductive JVal : Type where
  | null : JVal
  | boolean : Bool → JVal
  | int : Int → JVal
  | float : Rat → JVal
  | str : String → JVal
  | arr : List JVal → JVal
  | obj : List (String × JVal) → JVal

/-- Hex digit used when escaping control characters, as `json.dumps` does. -/
def hexDigit (n : Nat) : Char :=
  if n < 10 then Char.ofNat (48 + n) else Char.ofNat (87 + n)

/-- JSON string escaping of one character (with `ensure_ascii=False`). -/
def escapeChar (c : Char) : String :=
  if c = '\\' then "\\\\"
  else if c = '"' then "\\\""
  else if c = '\n' then "\\n"
  else if c = '\t' then "\\t"
  else if c = '\r' then "\\r"
  else if c.toNat < 32 then
    "\\u00" ++ String.singleton (hexDigit (c.toNat / 16)) ++ String.singleton (hexDigit (c.toNat % 16))
  else String.singleton c

/-- JSON string escaping (with `ensure_ascii=False`). -/
def escapeJson (s : String) : String :=
  String.join (s.toList.map escapeChar)

mutual

/-- Python `json.dumps(v, ensure_ascii=False)` with the default separators
`", "` and `": "`. -/
def json_dumps : JVal → String
  | JVal.null => "null"
  | JVal.boolean b => if b then "true" else "false"
  | JVal.int n => toString n
  | JVal.float q => toString q
  | JVal.str s => "\"" ++ escapeJson s ++ "\""
  | JVal.arr xs => "[" ++ String.intercalate ", " (json_dumps_arr xs) ++ "]"
  | JVal.obj kvs => "\x7b" ++ String.intercalate ", " (json_dumps_fields kvs) ++ "\x7d"

/-- Serialize the elements of a JSON array. -/
def json_dumps_arr : List JVal → List String
  | [] => []
  | x :: xs => json_dumps x :: json_dumps_arr xs

/-- Serialize the fields of a JSON object. -/
def json_dumps_fields : List (String × JVal) → List String
  | [] => []
  | (k, v) :: rest => ("\"" ++ escapeJson k ++ "\": " ++ json_dumps v) :: json_dumps_fields rest

end

/-- An apostrophe character, used by Python `repr` of strings. -/
def quoteChar : String := String.singleton (Char.ofNat 39)

mutual

/-- Python `repr(v)` for parsed-JSON values (best effort; only reachable
through the dead `except` branch of `_to_cell_value`). -/
def py_repr : JVal → String
  | JVal.null => "None"
  | JVal.boolean b => if b then "True" else "False"
  | JVal.int n => toString n
  | JVal.float q => toString q
  | JVal.str s => quoteChar ++ s ++ quoteChar
  | JVal.arr xs => "[" ++ String.intercalate ", " (py_repr_arr xs) ++ "]"
  | JVal.obj kvs => "\x7b" ++ String.intercalate ", " (py_repr_fields kvs) ++ "\x7d"

/-- Python `repr` of the elements of a list. -/
def py_repr_arr : List JVal → List String
  | [] => []
  | x :: xs => py_repr x :: py_repr_arr xs

/-- Python `repr` of the items of a dict. -/
def py_repr_fields : List (String × JVal) → List String
  | [] => []
  | (k, v) :: rest => (quoteChar ++ k ++ quoteChar ++ ": " ++ py_repr v) :: py_repr_fields rest

end

/-- Python `str(v)`: the identity on strings, `repr`-style otherwise. -/
def py_str : JVal → String
  | JVal.str s => s
  | v => py_repr v

/-- A scalar storable in a DuckDB cell after coercion: SQL NULL, an integer,
a double, or a text value. -/
inductive Cell : Type where
  | null : Cell
  | int : Int → Cell
  | float : Rat → Cell
  | str : String → Cell
deriving Repr, DecidableEq

/-! ## Python dictionaries as insertion-ordered association lists -/

/-- Python `d.get(k)` / `k in d`: find the value at the first (for a real
dict, unique) occurrence of key `k`. -/
def dictGet {α : Type} : List (String × α) → String → Option α
  | [], _ => none
  | (k, v) :: rest, k0 => if k0 = k then some v else dictGet rest k0

/-- Python `d[k] = v`: update the value in place if the key is present
(keeping its position), otherwise append the new binding. -/
def dictInsert {α : Type} : List (String × α) → String → α → List (String × α)
  | [], k, v => [(k, v)]
  | (k1, v1) :: rest, k, v =>
    if k = k1 then (k1, v) :: rest else (k1, v1) :: dictInsert rest k v

/-- Python `d.setdefault(k, v)`: insert `(k, v)` only when `k` is absent. -/
def dictSetdefault {α : Type} (d : List (String × α)) (k : String) (v : α) :
    List (String × α) :=
  match dictGet d k with
  | some _ => d
  | none => d ++ [(k, v)]

/-- The keys of an association list, in order. -/
def rowKeys {α : Type} (d : List (String × α)) : List String :=
  d.map Prod.fst

/-- The value of the LAST binding of key `k` in an association list
(Python dict construction is last-write-wins on duplicate keys). -/
def assocLast {α : Type} : List (String × α) → String → Option α
  | [], _ => none
  | (k, v) :: rest, k0 =>
    match assocLast rest k0 with
    | some w => some w
    | none => if k0 = k then some v else none

/-! ## The type inferencer (`_is_int`, `_is_float`, `_to_cell_value`,
`_merge_type`, `_infer_schema`) -/

/-- The test `isinstance(x, bool) is False and isinstance(x, int)`: Python booleans
are an `int` subtype, which the script explicitly excludes. -/
def _is_int : JVal → Bool
  | JVal.boolean _ => false
  | JVal.int _ => true
  | _ => false

/-- The test `isinstance(x, float)`. -/
def _is_float : JVal → Bool
  | JVal.float _ => true
  | _ => false

/-- Serialization `json.dumps` wrapped the way `_to_cell_value` calls it: `none` models a
raised serialization exception.  Every parsed JSON value serializes
successfully, so on this domain the result is always `some`. -/
def json_dumps_opt (v : JVal) : Option String :=
  some (json_dumps v)

/-- The `try: json.dumps ... except: str(v)` tail of `_to_cell_value`:
everything that is not null/int/float/str becomes TEXT, via JSON
serialization when it succeeds and `str(v)` otherwise. -/
def _to_cell_structured (o : Option String) (v : JVal) : Cell × String :=
  match o with
  | some s => (Cell.str s, "TEXT")
  | none => (Cell.str (py_str v), "TEXT")

/-- The function `_to_cell_value`: convert a value into a DB-storable scalar plus its
inferred column type.  The `.boolean` case falls through `_is_int` (bool is
excluded) and `_is_float` to the JSON-serialization tail. -/
def _to_cell_value : JVal → Cell × String
  | JVal.null => (Cell.null, "TEXT")
  | JVal.int n => (Cell.int n, "BIGINT")
  | JVal.float q => (Cell.float q, "DOUBLE")
  | JVal.str s => (Cell.str s, "TEXT")
  | v => _to_cell_structured (json_dumps_opt v) v

/-- The escalation order `TYPE_ORDER = ["BIGINT", "DOUBLE", "TEXT"]`. -/
def TYPE_ORDER : List String := ["BIGINT", "DOUBLE", "TEXT"]

/-- The lookup `order.get(t, 2)`: the index of a kind in `TYPE_ORDER`, unrecognized
kinds mapping to 2. -/
def typeOrderIndex (t : String) : Nat :=
  if t = "BIGINT" then 0 else if t = "DOUBLE" then 1 else 2

/-- The function `_merge_type`: equal kinds are returned unchanged, otherwise the kind
at the larger `TYPE_ORDER` index wins. -/
def _merge_type (t1 t2 : String) : String :=
  if t1 = t2 then t1
  else TYPE_ORDER.getD (max (typeOrderIndex t1) (typeOrderIndex t2)) "TEXT"

/-- A flattener row before coercion: Python dict from column name to raw value. -/
abbrev Row : Type := List (String × JVal)

/-- A row after coercion: Python dict from column name to storable cell. -/
abbrev CRow : Type := List (String × Cell)

/-- A column schema: Python dict from column name to kind string. -/
abbrev Schema : Type := List (String × String)

/-- One step of `_infer_schema`'s inner loop, for one `(k, v)` item:
`val, t = _to_cell_value(v); row[k] = val;
col_types[k] = t if prev is None else _merge_type(prev, t)`.
State is the pair (current `col_types`, the row rebuilt so far). -/
def _infer_schema_item (ct : Schema) (k : String) (v : JVal) : Schema :=
  let t := (_to_cell_value v).2
  dictInsert ct k
    (match dictGet ct k with
     | none => t
     | some prev => _merge_type prev t)

/-- The `col_types` accumulated by `_infer_schema` over one row. -/
def _infer_schema_row (ct : Schema) (row : Row) : Schema :=
  row.foldl (fun ct2 p => _infer_schema_item ct2 p.1 p.2) ct

/-- The in-place coercion `row[k] = val` performed by `_infer_schema`
(each key of a dict is visited exactly once, so it is a map). -/
def coerceRow (row : Row) : CRow :=
  row.map (fun p => (p.1, (_to_cell_value p.2).1))

/-- The function `_infer_schema`: infer column types over all rows and coerce every row's
values to their storable form. -/
def _infer_schema (rows : List Row) : Schema × List CRow :=
  (rows.foldl _infer_schema_row [], rows.map coerceRow)

/-! ## The flattener (`dict_to_duckdb`, rows part) -/

/-- Whether the value is a Python dict (`isinstance(payload, dict)`). -/
def isDict : JVal → Bool
  | JVal.obj _ => true
  | _ => false

/-- The row built for one record: `row = {"record_id": rec_id}` followed by
`row[k] = v` for each payload item when the payload is a dict, else
`row["data"] = payload`. -/
def buildRow (rec_id : String) (payload : JVal) : Row :=
  match payload with
  | JVal.obj kvs => kvs.foldl (fun r p => dictInsert r p.1 p.2) [("record_id", JVal.str rec_id)]
  | _ => [("record_id", JVal.str rec_id), ("data", payload)]

/-- The list of flattener rows for a whole input dictionary. -/
def buildRows (dictionary : List (String × JVal)) : List Row :=
  dictionary.map (fun p => buildRow p.1 p.2)

/-- The `record_id` fix-up of `dict_to_duckdb`: force the column to TEXT,
and when it is missing from the schema entirely, add it and pad every row
with a null (`r.setdefault("record_id", None)`). -/
def ensureRecordId (schema : Schema) (rows : List CRow) : Schema × List CRow :=
  match dictGet schema "record_id" with
  | none =>
    (dictInsert schema "record_id" "TEXT",
     rows.map (fun r => dictSetdefault r "record_id" Cell.null))
  | some _ => (dictInsert schema "record_id" "TEXT", rows)

/-! ## The DuckDB model and the writer
(`_create_or_replace_table`, `_insert_rows`) -/

/-- A DuckDB table: the columns `(name, declared type)` in order, and the
stored rows, each represented as the association of every table column with
the cell stored there. -/
structure Table : Type where
  cols : Schema
  rows : List CRow
deriving Repr, DecidableEq

/-- A DuckDB database file: tables by name. -/
abbrev DB : Type := List (String × Table)

/-- The row a table stores for `INSERT INTO t (cols...) VALUES (tuple...)`:
each table column receives the positionally matching tuple value when named,
and its default, NULL, otherwise. -/
def storedRow (tcols : Schema) (cols : List String) (tuple : List Cell) : CRow :=
  tcols.map (fun p => (p.1, (dictGet (cols.zip tuple) p.1).getD Cell.null))

/-- The statement `INSERT INTO t (cols...) VALUES (tuple...)`: every named column must
exist in the table and the arity must match, else the statement errors. -/
def sqlInsert (tbl : Table) (cols : List String) (tuple : List Cell) :
    Except String Table :=
  if (∀ c ∈ cols, c ∈ rowKeys tbl.cols) ∧ tuple.length = cols.length then
    Except.ok { tbl with rows := tbl.rows ++ [storedRow tbl.cols cols tuple] }
  else Except.error "Binder Error: column not found or arity mismatch"

/-- The function `_create_or_replace_table`: `CREATE OR REPLACE TABLE` drops any existing
table of the same name and creates a fresh, empty one with the given schema. -/
def _create_or_replace_table (db : DB) (table : String) (schema : Schema) : DB :=
  dictInsert db table { cols := schema, rows := [] }

/-- The parameter tuple `_insert_rows` builds for one row:
`tuple(r.get(c) for c in cols)` (absent keys give `None`). -/
def tupleFor (cols : List String) (r : CRow) : List Cell :=
  cols.map (fun c => (dictGet r c).getD Cell.null)

/-- The `executemany` core of `_insert_rows`, acting on one table:
`cols = list(rows[0].keys())`, one tuple per row, inserted in order. -/
def insertIntoTable (tbl : Table) (rows : List CRow) : Except String Table :=
  match rows with
  | [] => Except.ok tbl
  | r0 :: _ =>
    let cols := rowKeys r0
    let data := rows.map (tupleFor cols)
    data.foldlM (fun t tuple => sqlInsert t cols tuple) tbl

/-- The function `_insert_rows`: `if not rows: return`, otherwise bulk-insert into the
named table using the first row's key order. -/
def _insert_rows (db : DB) (table : String) (rows : List CRow) : Except String DB :=
  match rows with
  | [] => Except.ok db
  | r0 :: rest =>
    match dictGet db table with
    | none => Except.error "Catalog Error: table does not exist"
    | some tbl => (insertIntoTable tbl (r0 :: rest)).map (fun t2 => dictInsert db table t2)

/-- The function `dict_to_duckdb`: flatten the dictionary into rows, infer the schema
(coercing the rows), force `record_id` to a TEXT column, then create-or-
replace the table and bulk-insert. -/
def dict_to_duckdb (db : DB) (table_name : String) (dictionary : List (String × JVal)) :
    Except String DB :=
  let rows := buildRows dictionary
  let inferred := _infer_schema rows
  let fixed := ensureRecordId inferred.1 inferred.2
  let db2 := _create_or_replace_table db table_name fixed.1
  _insert_rows db2 table_name fixed.2

/-- The table a run writes, independent of the initial database state. -/
def pureRun (dictionary : List (String × JVal)) : Except String Table :=
  let rows := buildRows dictionary
  let inferred := _infer_schema rows
  let fixed := ensureRecordId inferred.1 inferred.2
  insertIntoTable { cols := fixed.1, rows := [] } fixed.2

/-- The table produced by running on an empty database, for stating
concrete end-to-end facts. -/
def runTable (table_name : String) (dictionary : List (String × JVal)) : Option Table :=
  match dict_to_duckdb [] table_name dictionary with
  | Except.ok db => dictGet db table_name
  | Except.error _ => none

/-! ## The entry point (`main`) after parsing -/

/-- The error kinds of §7 of the spec that can still occur once the input
text has parsed (`NotFound`/`ParseError` concern file I/O before this
point).  `SchemaViolation` is the `SystemError` raised by `main` for a
non-dict top level. -/
inductive LoadError : Type where
  | SchemaViolation : String → LoadError
  | StorageError : String → LoadError
deriving Repr, DecidableEq

/-- The behavior of `main` from the point where the JSON text has been parsed: reject a
non-dict top level before touching the database, otherwise run
`dict_to_duckdb`. -/
def mainLoad (data : JVal) (db : DB) (table : String) : Except LoadError DB :=
  match data with
  | JVal.obj kvs => (dict_to_duckdb db table kvs).mapError LoadError.StorageError
  | _ =>
    Except.error (LoadError.SchemaViolation
      "Input JSON must be a top-level dictionary of \x7brecord_id: \x7b ...row... \x7d\x7d.")

/-! ## Observables used to state the claims -/

/-- The column names of a table, in declaration order. -/
def colNames (tbl : Table) : List String :=
  rowKeys tbl.cols

/-- The set of field names observed across all flattener rows of an input. -/
def observedFields (dictionary : List (String × JVal)) : Finset String :=
  (buildRows dictionary).foldr (fun r acc => (rowKeys r).toFinset ∪ acc) ∅

/-- The column-kind merge the spec describes: `max` under
`BIGINT < DOUBLE < TEXT` with unrecognized kinds treated as TEXT. -/
def mergeKindSpec (t1 t2 : String) : String :=
  TYPE_ORDER.getD (max (typeOrderIndex t1) (typeOrderIndex t2)) "TEXT"

/-- The schema a run infers, before the `record_id` fix-up. -/
def rawSchema (d : List (String × JVal)) : Schema :=
  (_infer_schema (buildRows d)).1

/-- The coerced rows of a run, before the `record_id` fix-up. -/
def rawRows (d : List (String × JVal)) : List CRow :=
  (_infer_schema (buildRows d)).2

/-- The schema of a run after the `record_id` fix-up. -/
def finalSchema (d : List (String × JVal)) : Schema :=
  (ensureRecordId (rawSchema d) (rawRows d)).1

/-- The rows of a run after the `record_id` fix-up, as handed to the writer. -/
def finalRows (d : List (String × JVal)) : List CRow :=
  (ensureRecordId (rawSchema d) (rawRows d)).2

/-- The rows as the table stores them after the bulk insert, which names the
columns of the first row. -/
def storedRows (schema : Schema) (rows : List CRow) : List CRow :=
  match rows with
  | [] => []
  | r0 :: _ => rows.map (fun r => storedRow schema (rowKeys r0) (tupleFor (rowKeys r0) r))

/-! ## Association-list lemmas -/

section DictLemmas

variable {α : Type}

theorem dictGet_dictInsert (l : List (String × α)) (k : String) (v : α) (k0 : String) :
    dictGet (dictInsert l k v) k0 = if k0 = k then some v else dictGet l k0 := by
  induction l with
  | nil => simp [dictGet, dictInsert]
  | cons p rest ih =>
    obtain ⟨k1, v1⟩ := p
    by_cases hk : k = k1
    · subst hk
      by_cases h0 : k0 = k
      · simp [dictInsert, dictGet, h0]
      · simp [dictInsert, dictGet, h0]
    · by_cases h0 : k0 = k1
      · subst h0
        have hk0 : ¬ k0 = k := fun h => hk h.symm
        simp [dictInsert, if_neg hk, dictGet, hk0]
      · simp [dictInsert, if_neg hk, dictGet, h0, ih]

theorem dictGet_dictInsert_self (l : List (String × α)) (k : String) (v : α) :
    dictGet (dictInsert l k v) k = some v := by
  simp [dictGet_dictInsert]

theorem dictInsert_dictInsert (l : List (String × α)) (k : String) (a b : α) :
    dictInsert (dictInsert l k a) k b = dictInsert l k b := by
  induction l with
  | nil => simp [dictInsert]
  | cons p rest ih =>
    obtain ⟨k1, v1⟩ := p
    by_cases hk : k = k1
    · subst hk
      simp [dictInsert]
    · simp [dictInsert, if_neg hk, ih]

theorem dictInsert_cons_self (k : String) (v0 v : α) (rest : List (String × α)) :
    dictInsert ((k, v0) :: rest) k v = (k, v) :: rest := by
  simp [dictInsert]

theorem mem_rowKeys_dictInsert (l : List (String × α)) (k : String) (v : α) (x : String) :
    x ∈ rowKeys (dictInsert l k v) ↔ x = k ∨ x ∈ rowKeys l := by
  induction l with
  | nil => simp [dictInsert, rowKeys]
  | cons p rest ih =>
    obtain ⟨k1, v1⟩ := p
    by_cases hk : k = k1
    · subst hk
      rw [dictInsert_cons_self]
      simp only [rowKeys, List.map_cons, List.mem_cons]
      tauto
    · simp only [dictInsert, if_neg hk, rowKeys, List.map_cons, List.mem_cons]
      have := ih
      simp only [rowKeys] at this
      rw [this]
      tauto

theorem dictInsert_ne_nil (l : List (String × α)) (k : String) (v : α) :
    dictInsert l k v ≠ [] := by
  cases l with
  | nil => simp [dictInsert]
  | cons p rest =>
    obtain ⟨k1, v1⟩ := p
    by_cases hk : k = k1
    · simp [dictInsert, hk]
    · simp [dictInsert, hk]

theorem head_key_dictInsert (l : List (String × α)) (k : String) (v : α) (h : l ≠ []) :
    (dictInsert l k v).head?.map Prod.fst = l.head?.map Prod.fst := by
  cases l with
  | nil => exact absurd rfl h
  | cons p rest =>
    obtain ⟨k1, v1⟩ := p
    by_cases hk : k = k1
    · simp [dictInsert, hk]
    · simp [dictInsert, hk]

theorem dictGet_eq_none_iff (l : List (String × α)) (c : String) :
    dictGet l c = none ↔ c ∉ rowKeys l := by
  induction l with
  | nil => simp [dictGet, rowKeys]
  | cons p rest ih =>
    obtain ⟨k1, v1⟩ := p
    by_cases h : c = k1
    · subst h
      simp [dictGet, rowKeys]
    · simp [dictGet, h, rowKeys, ih]

theorem dictGet_append (l1 l2 : List (String × α)) (c : String) :
    dictGet (l1 ++ l2) c = ((dictGet l1 c).orElse fun _ => dictGet l2 c) := by
  induction l1 with
  | nil => simp [dictGet]
  | cons p rest ih =>
    obtain ⟨k1, v1⟩ := p
    by_cases h : c = k1
    · simp [dictGet, h]
    · simp [dictGet, h, ih]

theorem dictGet_dictSetdefault_of_none (l : List (String × α)) (k : String) (v : α)
    (c : String) (h : dictGet l c = none) :
    dictGet (dictSetdefault l k v) c = if c = k then some v else none := by
  unfold dictSetdefault
  by_cases hck : c = k
  · subst hck
    rw [h]
    simp [dictGet_append, h, dictGet]
  · cases hk : dictGet l k with
    | some w => simp [h, hck]
    | none => simp [dictGet_append, h, dictGet, hck]

theorem mem_rowKeys_dictSetdefault (l : List (String × α)) (k : String) (v : α)
    (x : String) (h : x ∈ rowKeys (dictSetdefault l k v)) :
    x = k ∨ x ∈ rowKeys l := by
  unfold dictSetdefault at h
  cases hk : dictGet l k with
  | some w => rw [hk] at h; exact Or.inr h
  | none =>
    rw [hk] at h
    simp only [rowKeys, List.map_append, List.mem_append] at h
    rcases h with h | h
    · exact Or.inr h
    · simp at h
      exact Or.inl h

theorem dictGet_map_snd {β γ : Type} (l : List (String × β)) (g : String → γ) (c : String) :
    dictGet (l.map (fun p => (p.1, g p.1))) c =
      if c ∈ rowKeys l then some (g c) else none := by
  induction l with
  | nil => simp [dictGet, rowKeys]
  | cons p rest ih =>
    obtain ⟨k1, v1⟩ := p
    simp only [List.map_cons, dictGet, rowKeys, List.mem_cons]
    by_cases h : c = k1
    · simp [h]
    · rw [if_neg h, ih]
      simp only [rowKeys]
      by_cases hc : c ∈ List.map Prod.fst rest
      · rw [if_pos hc, if_pos (Or.inr hc)]
      · rw [if_neg hc, if_neg (by tauto)]

theorem dictGet_zip_map (cols : List String) (f : String → α) (c : String) :
    dictGet (cols.zip (cols.map f)) c = if c ∈ cols then some (f c) else none := by
  induction cols with
  | nil => simp [dictGet]
  | cons c1 rest ih =>
    rw [List.map_cons, List.zip_cons_cons]
    simp only [dictGet, List.mem_cons]
    by_cases h : c = c1
    · simp [h]
    · rw [if_neg h, ih]
      by_cases hc : c ∈ rest
      · rw [if_pos hc, if_pos (Or.inr hc)]
      · rw [if_neg hc, if_neg (by tauto)]

end DictLemmas

/-! ## Merge-type lemmas -/

theorem typeOrderIndex_le_two (t : String) : typeOrderIndex t ≤ 2 := by
  unfold typeOrderIndex
  split
  · omega
  · split <;> omega

theorem mem_TYPE_ORDER_iff (t : String) :
    t ∈ TYPE_ORDER ↔ t = "BIGINT" ∨ t = "DOUBLE" ∨ t = "TEXT" := by
  simp [TYPE_ORDER]

theorem getD_TYPE_ORDER_mem (i : Nat) (h : i ≤ 2) :
    TYPE_ORDER.getD i "TEXT" ∈ TYPE_ORDER := by
  interval_cases i <;> simp [TYPE_ORDER]

theorem typeOrderIndex_getD (i : Nat) (h : i ≤ 2) :
    typeOrderIndex (TYPE_ORDER.getD i "TEXT") = i := by
  interval_cases i <;> simp [TYPE_ORDER, typeOrderIndex]

theorem getD_typeOrderIndex_self (t : String) (h : t ∈ TYPE_ORDER) :
    TYPE_ORDER.getD (typeOrderIndex t) "TEXT" = t := by
  rcases (mem_TYPE_ORDER_iff t).mp h with h | h | h <;> subst h <;> rfl

theorem merge_type_self (t : String) : _merge_type t t = t := by
  simp [_merge_type]

theorem merge_type_ne (t1 t2 : String) (h : t1 ≠ t2) :
    _merge_type t1 t2 = TYPE_ORDER.getD (max (typeOrderIndex t1) (typeOrderIndex t2)) "TEXT" := by
  simp [_merge_type, h]

theorem typeOrderIndex_merge (t1 t2 : String) :
    typeOrderIndex (_merge_type t1 t2) = max (typeOrderIndex t1) (typeOrderIndex t2) := by
  by_cases h : t1 = t2
  · subst h
    simp [merge_type_self]
  · rw [merge_type_ne t1 t2 h, typeOrderIndex_getD]
    exact max_le (typeOrderIndex_le_two t1) (typeOrderIndex_le_two t2)

theorem merge_type_mem (t1 t2 : String) (h : t1 ∈ TYPE_ORDER ∨ t2 ∈ TYPE_ORDER) :
    _merge_type t1 t2 ∈ TYPE_ORDER := by
  by_cases he : t1 = t2
  · subst he
    rw [merge_type_self]
    exact h.elim id id
  · rw [merge_type_ne t1 t2 he]
    exact getD_TYPE_ORDER_mem _ (max_le (typeOrderIndex_le_two t1) (typeOrderIndex_le_two t2))

theorem mem_TYPE_ORDER_eq_of_index (r s : String) (hr : r ∈ TYPE_ORDER) (hs : s ∈ TYPE_ORDER)
    (h : typeOrderIndex r = typeOrderIndex s) : r = s := by
  rcases (mem_TYPE_ORDER_iff r).mp hr with h1 | h1 | h1 <;>
    rcases (mem_TYPE_ORDER_iff s).mp hs with h2 | h2 | h2 <;>
      subst h1 <;> subst h2 <;> first | rfl | (simp [typeOrderIndex] at h)

theorem merge_type_comm (t1 t2 : String) : _merge_type t1 t2 = _merge_type t2 t1 := by
  by_cases h : t1 = t2
  · subst h; rfl
  · rw [merge_type_ne t1 t2 h, merge_type_ne t2 t1 (Ne.symm h), Nat.max_comm]

theorem merge_type_mem_of_ne (t1 t2 : String) (h : t1 ≠ t2) :
    _merge_type t1 t2 ∈ TYPE_ORDER := by
  rw [merge_type_ne t1 t2 h]
  exact getD_TYPE_ORDER_mem _ (max_le (typeOrderIndex_le_two t1) (typeOrderIndex_le_two t2))

theorem merge_type_left_absorb (a c : String) :
    _merge_type a (_merge_type a c) = _merge_type a c := by
  by_cases hac : a = c
  · subst hac
    simp [merge_type_self]
  · have hm : _merge_type a c ∈ TYPE_ORDER := merge_type_mem_of_ne a c hac
    by_cases ham : a = _merge_type a c
    · rw [← ham, merge_type_self, ham]
    · rw [merge_type_ne a _ ham, typeOrderIndex_merge,
        max_eq_right (le_max_left (typeOrderIndex a) (typeOrderIndex c)),
        merge_type_ne a c hac]

theorem merge_type_right_absorb (a b : String) :
    _merge_type (_merge_type a b) b = _merge_type a b := by
  by_cases hab : a = b
  · subst hab
    simp [merge_type_self]
  · by_cases hmb : _merge_type a b = b
    · rw [hmb, merge_type_self]
    · rw [merge_type_ne _ b hmb, typeOrderIndex_merge,
        max_eq_left (le_max_right (typeOrderIndex a) (typeOrderIndex b)),
        merge_type_ne a b hab]

theorem merge_type_assoc (a b c : String) :
    _merge_type (_merge_type a b) c = _merge_type a (_merge_type b c) := by
  by_cases hab : a = b
  · subst hab
    rw [merge_type_self]
    exact (merge_type_left_absorb a c).symm
  · by_cases hbc : b = c
    · subst hbc
      rw [merge_type_self]
      exact merge_type_right_absorb a b
    · have h1 : _merge_type a b ∈ TYPE_ORDER := merge_type_mem_of_ne a b hab
      have h2 : _merge_type b c ∈ TYPE_ORDER := merge_type_mem_of_ne b c hbc
      apply mem_TYPE_ORDER_eq_of_index _ _
        (merge_type_mem _ _ (Or.inl h1)) (merge_type_mem _ _ (Or.inr h2))
      rw [typeOrderIndex_merge, typeOrderIndex_merge, typeOrderIndex_merge,
        typeOrderIndex_merge, Nat.max_assoc]

theorem merge_type_text_right (t : String) : _merge_type t "TEXT" = "TEXT" := by
  by_cases h : t = "TEXT"
  · subst h; rfl
  · rw [merge_type_ne t _ h]
    have h2 : typeOrderIndex "TEXT" = 2 := rfl
    rw [h2, max_eq_right (typeOrderIndex_le_two t)]
    rfl

theorem merge_type_text_left (t : String) : _merge_type "TEXT" t = "TEXT" := by
  rw [merge_type_comm]
  exact merge_type_text_right t

/-! ## Flattener lemmas -/

section FoldInsert

variable {α : Type}

theorem mem_rowKeys_foldl_dictInsert (kvs : List (String × α)) :
    ∀ (l : List (String × α)) (x : String),
      x ∈ rowKeys (kvs.foldl (fun r p => dictInsert r p.1 p.2) l) ↔
        x ∈ rowKeys l ∨ x ∈ rowKeys kvs := by
  induction kvs with
  | nil => intro l x; simp [rowKeys]
  | cons p rest ih =>
    intro l x
    simp only [List.foldl_cons]
    rw [ih]
    rw [mem_rowKeys_dictInsert]
    simp only [rowKeys, List.map_cons, List.mem_cons]
    tauto

theorem dictGet_foldl_dictInsert (kvs : List (String × α)) :
    ∀ (l : List (String × α)) (k0 : String),
      dictGet (kvs.foldl (fun r p => dictInsert r p.1 p.2) l) k0 =
        match assocLast kvs k0 with
        | some w => some w
        | none => dictGet l k0 := by
  induction kvs with
  | nil => intro l k0; rfl
  | cons p rest ih =>
    obtain ⟨pk, pv⟩ := p
    intro l k0
    simp only [List.foldl_cons]
    rw [ih]
    cases h : assocLast rest k0 with
    | some w => simp [assocLast, h]
    | none =>
      simp only [assocLast, h]
      rw [dictGet_dictInsert]
      by_cases hk : k0 = pk
      · simp [hk]
      · simp [hk]

theorem foldl_dictInsert_ne_nil (kvs : List (String × α)) :
    ∀ (l : List (String × α)), l ≠ [] →
      kvs.foldl (fun r p => dictInsert r p.1 p.2) l ≠ [] := by
  induction kvs with
  | nil => intro l h; exact h
  | cons p rest ih =>
    intro l _
    simp only [List.foldl_cons]
    exact ih _ (dictInsert_ne_nil l p.1 p.2)

theorem foldl_dictInsert_head_key (kvs : List (String × α)) :
    ∀ (l : List (String × α)), l ≠ [] →
      (kvs.foldl (fun r p => dictInsert r p.1 p.2) l).head?.map Prod.fst =
        l.head?.map Prod.fst := by
  induction kvs with
  | nil => intro l _; rfl
  | cons p rest ih =>
    intro l h
    simp only [List.foldl_cons]
    rw [ih _ (dictInsert_ne_nil l p.1 p.2), head_key_dictInsert l p.1 p.2 h]

end FoldInsert

theorem buildRow_ne_nil (k : String) (p : JVal) : buildRow k p ≠ [] := by
  cases p <;> simp only [buildRow] <;> first
    | exact foldl_dictInsert_ne_nil _ _ (by simp)
    | simp

theorem buildRow_head (k : String) (p : JVal) :
    (buildRow k p).head?.map Prod.fst = some "record_id" := by
  cases p <;> simp only [buildRow] <;> first
    | (rw [foldl_dictInsert_head_key _ _ (by simp)]; rfl)
    | rfl

theorem buildRow_exists_cons (k : String) (p : JVal) :
    ∃ v tail, buildRow k p = ("record_id", v) :: tail := by
  cases hb : buildRow k p with
  | nil => exact absurd hb (buildRow_ne_nil k p)
  | cons q t =>
    obtain ⟨qk, qv⟩ := q
    have h2 := buildRow_head k p
    rw [hb] at h2
    simp only [List.head?_cons, Option.map_some'] at h2
    obtain rfl : qk = "record_id" := by injection h2
    exact ⟨qv, t, rfl⟩

theorem mem_rowKeys_buildRow_obj (k : String) (kvs : List (String × JVal)) (x : String) :
    x ∈ rowKeys (buildRow k (JVal.obj kvs)) ↔ x = "record_id" ∨ x ∈ rowKeys kvs := by
  simp only [buildRow]
  rw [mem_rowKeys_foldl_dictInsert]
  simp [rowKeys]

theorem dictGet_buildRow_obj_record_id (k : String) (kvs : List (String × JVal)) :
    dictGet (buildRow k (JVal.obj kvs)) "record_id" =
      some ((assocLast kvs "record_id").getD (JVal.str k)) := by
  simp only [buildRow]
  rw [dictGet_foldl_dictInsert]
  cases h : assocLast kvs "record_id" with
  | some w => simp
  | none => simp [dictGet]

/-! ## Schema-inference lemmas -/

theorem infer_item_eq_dictInsert (ct : Schema) (k : String) (v : JVal) :
    ∃ t, _infer_schema_item ct k v = dictInsert ct k t := by
  exact ⟨_, rfl⟩

theorem mem_rowKeys_infer_row (r : Row) :
    ∀ (ct : Schema) (x : String),
      x ∈ rowKeys (_infer_schema_row ct r) ↔ x ∈ rowKeys ct ∨ x ∈ rowKeys r := by
  induction r with
  | nil => intro ct x; simp [_infer_schema_row, rowKeys]
  | cons p rest ih =>
    intro ct x
    simp only [_infer_schema_row, List.foldl_cons] at ih ⊢
    rw [ih]
    simp only [_infer_schema_item]
    rw [mem_rowKeys_dictInsert]
    simp only [rowKeys, List.map_cons, List.mem_cons]
    tauto

theorem mem_rowKeys_infer_fold (rows : List Row) :
    ∀ (ct : Schema) (x : String),
      x ∈ rowKeys (rows.foldl _infer_schema_row ct) ↔
        x ∈ rowKeys ct ∨ ∃ r ∈ rows, x ∈ rowKeys r := by
  induction rows with
  | nil => intro ct x; simp
  | cons r rest ih =>
    intro ct x
    simp only [List.foldl_cons]
    rw [ih, mem_rowKeys_infer_row]
    simp only [List.exists_mem_cons_iff]
    tauto

theorem infer_row_ne_nil (r : Row) :
    ∀ (ct : Schema), ct ≠ [] → _infer_schema_row ct r ≠ [] := by
  induction r with
  | nil => intro ct h; exact h
  | cons p rest ih =>
    intro ct _
    simp only [_infer_schema_row, List.foldl_cons] at ih ⊢
    exact ih _ (dictInsert_ne_nil ct p.1 _)

theorem infer_row_head_key (r : Row) :
    ∀ (ct : Schema), ct ≠ [] →
      (_infer_schema_row ct r).head?.map Prod.fst = ct.head?.map Prod.fst := by
  induction r with
  | nil => intro ct _; rfl
  | cons p rest ih =>
    intro ct h
    simp only [_infer_schema_row, List.foldl_cons] at ih ⊢
    have hne : _infer_schema_item ct p.1 p.2 ≠ [] := dictInsert_ne_nil ct p.1 _
    rw [ih _ hne]
    exact head_key_dictInsert ct p.1 _ h

theorem infer_fold_ne_nil (rows : List Row) :
    ∀ (ct : Schema), ct ≠ [] → rows.foldl _infer_schema_row ct ≠ [] := by
  induction rows with
  | nil => intro ct h; exact h
  | cons r rest ih =>
    intro ct h
    simp only [List.foldl_cons]
    exact ih _ (infer_row_ne_nil r ct h)

theorem infer_fold_head_key (rows : List Row) :
    ∀ (ct : Schema), ct ≠ [] →
      (rows.foldl _infer_schema_row ct).head?.map Prod.fst = ct.head?.map Prod.fst := by
  induction rows with
  | nil => intro ct _; rfl
  | cons r rest ih =>
    intro ct h
    simp only [List.foldl_cons]
    rw [ih _ (infer_row_ne_nil r ct h), infer_row_head_key r ct h]

theorem rowKeys_coerceRow (r : Row) : rowKeys (coerceRow r) = rowKeys r := by
  induction r with
  | nil => rfl
  | cons p rest ih => simp only [coerceRow, rowKeys, List.map_cons] at ih ⊢; rw [ih]

theorem dictGet_coerceRow (r : Row) (c : String) :
    dictGet (coerceRow r) c = (dictGet r c).map (fun v => (_to_cell_value v).1) := by
  induction r with
  | nil => rfl
  | cons p rest ih =>
    obtain ⟨k1, v1⟩ := p
    simp only [coerceRow, List.map_cons, dictGet] at ih ⊢
    by_cases h : c = k1
    · simp [h]
    · simp only [if_neg h]
      exact ih

theorem mem_foldr_keyUnion (rows : List Row) (x : String) :
    x ∈ rows.foldr (fun r acc => (rowKeys r).toFinset ∪ acc) ∅ ↔
      ∃ r ∈ rows, x ∈ rowKeys r := by
  induction rows with
  | nil => simp
  | cons r rest ih =>
    simp only [List.foldr_cons, Finset.mem_union, List.mem_toFinset, ih,
      List.exists_mem_cons_iff]

theorem mem_observedFields (d : List (String × JVal)) (x : String) :
    x ∈ observedFields d ↔ ∃ r ∈ buildRows d, x ∈ rowKeys r := by
  exact mem_foldr_keyUnion (buildRows d) x

/-! ## `record_id` fix-up lemmas -/

theorem ensureRecordId_fst (s : Schema) (rows : List CRow) :
    (ensureRecordId s rows).1 = dictInsert s "record_id" "TEXT" := by
  unfold ensureRecordId
  cases dictGet s "record_id" <;> rfl

theorem ensureRecordId_snd (s : Schema) (rows : List CRow) :
    (ensureRecordId s rows).2 = rows ∨
      (ensureRecordId s rows).2 =
        rows.map (fun r => dictSetdefault r "record_id" Cell.null) := by
  unfold ensureRecordId
  cases dictGet s "record_id" with
  | none => exact Or.inr rfl
  | some _ => exact Or.inl rfl

theorem dictGet_ensureRecordId_fst (s : Schema) (rows : List CRow) :
    dictGet (ensureRecordId s rows).1 "record_id" = some "TEXT" := by
  rw [ensureRecordId_fst]
  exact dictGet_dictInsert_self s "record_id" "TEXT"

/-! ## Writer lemmas -/

theorem sqlInsert_ok (tbl : Table) (cols : List String) (tuple : List Cell)
    (h1 : ∀ c ∈ cols, c ∈ rowKeys tbl.cols) (h2 : tuple.length = cols.length) :
    sqlInsert tbl cols tuple =
      Except.ok { cols := tbl.cols, rows := tbl.rows ++ [storedRow tbl.cols cols tuple] } := by
  unfold sqlInsert
  rw [if_pos ⟨h1, h2⟩]

theorem sqlInsert_cols (tbl t2 : Table) (cols : List String) (tuple : List Cell)
    (h : sqlInsert tbl cols tuple = Except.ok t2) : t2.cols = tbl.cols := by
  unfold sqlInsert at h
  split at h
  · injection h with h
    rw [← h]
  · exact absurd h (by simp)

theorem foldlM_sqlInsert_ok (cols : List String) (data : List (List Cell)) :
    ∀ (tbl : Table),
      (∀ c ∈ cols, c ∈ rowKeys tbl.cols) →
      (∀ tu ∈ data, tu.length = cols.length) →
      data.foldlM (fun t tuple => sqlInsert t cols tuple) tbl =
        Except.ok (Table.mk tbl.cols (tbl.rows ++ data.map (storedRow tbl.cols cols))) := by
  induction data with
  | nil =>
    intro tbl _ _
    simp only [List.foldlM, List.map_nil, List.append_nil]
    rfl
  | cons tu rest ih =>
    intro tbl h1 h2
    rw [List.foldlM_cons, sqlInsert_ok tbl cols tu h1 (h2 tu (List.mem_cons_self tu rest))]
    show List.foldlM (fun t tuple => sqlInsert t cols tuple)
        (Table.mk tbl.cols (tbl.rows ++ [storedRow tbl.cols cols tu])) rest = _
    rw [ih (Table.mk tbl.cols (tbl.rows ++ [storedRow tbl.cols cols tu])) h1
      (fun t ht => h2 t (List.mem_cons_of_mem tu ht))]
    simp [List.append_assoc]

theorem foldlM_sqlInsert_cols (cols : List String) (data : List (List Cell)) :
    ∀ (tbl t2 : Table),
      data.foldlM (fun t tuple => sqlInsert t cols tuple) tbl = Except.ok t2 →
      t2.cols = tbl.cols := by
  induction data with
  | nil =>
    intro tbl t2 h
    have h2 : Except.ok tbl = Except.ok t2 := h
    injection h2 with h2
    rw [h2]
  | cons tu rest ih =>
    intro tbl t2 h
    rw [List.foldlM_cons] at h
    cases hs : sqlInsert tbl cols tu with
    | error e =>
      rw [hs] at h
      have h2 : (Except.error e : Except String Table) = Except.ok t2 := h
      exact absurd h2 (by simp)
    | ok t1 =>
      rw [hs] at h
      have h2 : List.foldlM (fun t tuple => sqlInsert t cols tuple) t1 rest = Except.ok t2 := h
      rw [ih t1 t2 h2]
      exact sqlInsert_cols tbl t1 cols tu hs

theorem insertIntoTable_cols (tbl t2 : Table) (rows : List CRow)
    (h : insertIntoTable tbl rows = Except.ok t2) : t2.cols = tbl.cols := by
  cases rows with
  | nil =>
    simp only [insertIntoTable] at h
    injection h with h
    rw [← h]
  | cons r0 rest =>
    simp only [insertIntoTable] at h
    exact foldlM_sqlInsert_cols _ _ tbl t2 h

theorem insertIntoTable_ok (tbl : Table) (r0 : CRow) (rest : List CRow)
    (h1 : ∀ c ∈ rowKeys r0, c ∈ rowKeys tbl.cols) :
    insertIntoTable tbl (r0 :: rest) =
      Except.ok (Table.mk tbl.cols (tbl.rows ++
        (r0 :: rest).map (fun r => storedRow tbl.cols (rowKeys r0) (tupleFor (rowKeys r0) r)))) := by
  simp only [insertIntoTable]
  rw [foldlM_sqlInsert_ok (rowKeys r0) _ tbl h1
    (by intro tu htu
        simp only [List.mem_map] at htu
        obtain ⟨r, _, hr⟩ := htu
        rw [← hr]
        simp [tupleFor])]
  rw [List.map_map]
  rfl

/-! ## Factoring a run through the table it writes -/

theorem _insert_rows_dictInsert (db : DB) (t : String) (tb0 : Table) (rows : List CRow) :
    _insert_rows (dictInsert db t tb0) t rows =
      (insertIntoTable tb0 rows).map (fun tb2 => dictInsert db t tb2) := by
  cases rows with
  | nil => rfl
  | cons r0 rest =>
    simp only [_insert_rows, dictGet_dictInsert_self]
    cases hi : insertIntoTable tb0 (r0 :: rest) with
    | error e => simp [hi, Except.map]
    | ok tb2 => simp [hi, Except.map, dictInsert_dictInsert]

theorem dict_to_duckdb_eq_pureRun (db : DB) (t : String) (d : List (String × JVal)) :
    dict_to_duckdb db t d = (pureRun d).map (fun tb => dictInsert db t tb) :=
  _insert_rows_dictInsert db t
    (Table.mk (ensureRecordId (_infer_schema (buildRows d)).1 (_infer_schema (buildRows d)).2).1 [])
    (ensureRecordId (_infer_schema (buildRows d)).1 (_infer_schema (buildRows d)).2).2

/-! ## Pipeline-level facts -/

theorem rawRows_eq (d : List (String × JVal)) :
    rawRows d = (buildRows d).map coerceRow := rfl

theorem mem_rowKeys_rawSchema (d : List (String × JVal)) (x : String) :
    x ∈ rowKeys (rawSchema d) ↔ ∃ r ∈ buildRows d, x ∈ rowKeys r := by
  unfold rawSchema _infer_schema
  rw [mem_rowKeys_infer_fold]
  simp [rowKeys]

theorem finalSchema_eq (d : List (String × JVal)) :
    finalSchema d = dictInsert (rawSchema d) "record_id" "TEXT" :=
  ensureRecordId_fst _ _

theorem mem_rowKeys_finalSchema (d : List (String × JVal)) (x : String) :
    x ∈ rowKeys (finalSchema d) ↔ x = "record_id" ∨ ∃ r ∈ buildRows d, x ∈ rowKeys r := by
  rw [finalSchema_eq, mem_rowKeys_dictInsert, mem_rowKeys_rawSchema]

theorem finalRows_eq (d : List (String × JVal)) :
    finalRows d = (buildRows d).map coerceRow ∨
      finalRows d = (buildRows d).map
        (fun r => dictSetdefault (coerceRow r) "record_id" Cell.null) := by
  unfold finalRows
  rcases ensureRecordId_snd (rawSchema d) (rawRows d) with h | h
  · rw [h, rawRows_eq]
    exact Or.inl rfl
  · rw [h, rawRows_eq, List.map_map]
    exact Or.inr rfl

theorem finalRows_keys_sub (d : List (String × JVal)) (r2 : CRow) (h : r2 ∈ finalRows d) :
    ∀ c ∈ rowKeys r2, c ∈ rowKeys (finalSchema d) := by
  intro c hc
  rw [mem_rowKeys_finalSchema]
  rcases finalRows_eq d with he | he <;> rw [he] at h <;>
    simp only [List.mem_map] at h <;> obtain ⟨r, hr, hrr⟩ := h
  · rw [← hrr, rowKeys_coerceRow] at hc
    exact Or.inr ⟨r, hr, hc⟩
  · rw [← hrr] at hc
    rcases mem_rowKeys_dictSetdefault _ _ _ _ hc with h1 | h1
    · exact Or.inl h1
    · rw [rowKeys_coerceRow] at h1
      exact Or.inr ⟨r, hr, h1⟩

theorem pureRun_ok (d : List (String × JVal)) :
    pureRun d =
      Except.ok (Table.mk (finalSchema d) (storedRows (finalSchema d) (finalRows d))) := by
  show insertIntoTable (Table.mk (finalSchema d) []) (finalRows d) = _
  cases hf : finalRows d with
  | nil => simp [insertIntoTable, storedRows]
  | cons r0 rest =>
    rw [insertIntoTable_ok (Table.mk (finalSchema d) []) r0 rest
      (fun c hc => finalRows_keys_sub d r0 (hf ▸ List.mem_cons_self r0 rest) c hc)]
    simp [storedRows]

theorem dictGet_storedRow (schema : Schema) (cols : List String) (tuple : List Cell)
    (c : String) :
    dictGet (storedRow schema cols tuple) c =
      if c ∈ rowKeys schema then some ((dictGet (cols.zip tuple) c).getD Cell.null)
      else none :=
  dictGet_map_snd schema (fun k => (dictGet (cols.zip tuple) k).getD Cell.null) c

theorem dictGet_storedRow_null (fs : Schema) (cols0 : List String) (rr : CRow) (c : String)
    (hcs : c ∈ rowKeys fs)
    (hnone : dictGet rr c = none ∨ dictGet rr c = some Cell.null) :
    dictGet (storedRow fs cols0 (tupleFor cols0 rr)) c = some Cell.null := by
  rw [dictGet_storedRow, if_pos hcs]
  have hz : dictGet (cols0.zip (tupleFor cols0 rr)) c =
      if c ∈ cols0 then some ((dictGet rr c).getD Cell.null) else none :=
    dictGet_zip_map cols0 (fun c2 => (dictGet rr c2).getD Cell.null) c
  rw [hz]
  by_cases hc : c ∈ cols0
  · rw [if_pos hc]
    rcases hnone with h | h <;> simp [h]
  · rw [if_neg hc]
    rfl

theorem dictGet_fixedRow_null (r : Row) (c : String) (hc : c ∉ rowKeys r) :
    dictGet (coerceRow r) c = none ∧
      ∀ v : Cell, dictGet (dictSetdefault (coerceRow r) "record_id" v) c = none ∨
        dictGet (dictSetdefault (coerceRow r) "record_id" v) c = some v := by
  have h0 : dictGet (coerceRow r) c = none := by
    rw [dictGet_coerceRow, (dictGet_eq_none_iff r c).mpr hc]
    rfl
  refine ⟨h0, fun v => ?_⟩
  rw [dictGet_dictSetdefault_of_none _ _ _ _ h0]
  by_cases hcr : c = "record_id"
  · rw [if_pos hcr]
    exact Or.inr rfl
  · rw [if_neg hcr]
    exact Or.inl rfl

/-! ## The claims -/

/-- C2: the per-value classification of `_to_cell_value` sends null to
`(null, TEXT)`, a non-boolean integer to itself with `BIGINT`, a float to
itself with `DOUBLE`, a string to itself unchanged with `TEXT`, and any
other value (booleans, lists, nested objects) to its JSON serialization as
text with kind `TEXT`; the fallback branch for failed serialization uses
the plain-text rendering and is still `TEXT`; booleans are excluded from
the integer test and only integer inputs ever classify as `BIGINT`. -/
theorem C2_classification :
    (_to_cell_value JVal.null = (Cell.null, "TEXT"))
    ∧ (∀ n : Int, _to_cell_value (JVal.int n) = (Cell.int n, "BIGINT"))
    ∧ (∀ q : Rat, _to_cell_value (JVal.float q) = (Cell.float q, "DOUBLE"))
    ∧ (∀ s : String, _to_cell_value (JVal.str s) = (Cell.str s, "TEXT"))
    ∧ (∀ b : Bool, _is_int (JVal.boolean b) = false
        ∧ _to_cell_value (JVal.boolean b) = (Cell.str (json_dumps (JVal.boolean b)), "TEXT"))
    ∧ (∀ xs : List JVal,
        _to_cell_value (JVal.arr xs) = (Cell.str (json_dumps (JVal.arr xs)), "TEXT"))
    ∧ (∀ kvs : List (String × JVal),
        _to_cell_value (JVal.obj kvs) = (Cell.str (json_dumps (JVal.obj kvs)), "TEXT"))
    ∧ (∀ v : JVal, _to_cell_structured none v = (Cell.str (py_str v), "TEXT"))
    ∧ (∀ v : JVal, (_to_cell_value v).2 = "BIGINT" → ∃ n : Int, v = JVal.int n) := by
  refine ⟨rfl, fun n => rfl, fun q => rfl, fun s => rfl, fun b => ⟨rfl, rfl⟩,
    fun xs => rfl, fun kvs => rfl, fun v => rfl, ?_⟩
  intro v h
  cases v with
  | int n => exact ⟨n, rfl⟩
  | null =>
    have h2 : ("TEXT" : String) = "BIGINT" := h
    exact absurd h2 (by decide)
  | boolean b =>
    have h2 : ("TEXT" : String) = "BIGINT" := h
    exact absurd h2 (by decide)
  | float q =>
    have h2 : ("DOUBLE" : String) = "BIGINT" := h
    exact absurd h2 (by decide)
  | str s =>
    have h2 : ("TEXT" : String) = "BIGINT" := h
    exact absurd h2 (by decide)
  | arr xs =>
    have h2 : ("TEXT" : String) = "BIGINT" := h
    exact absurd h2 (by decide)
  | obj kvs =>
    have h2 : ("TEXT" : String) = "BIGINT" := h
    exact absurd h2 (by decide)

/-- C2 witness: the only-integers-are-BIGINT conjunct at the concrete
input `5`. -/
theorem C2_classification_witness :
    ∃ n : Int, JVal.int 5 = JVal.int n :=
  C2_classification.2.2.2.2.2.2.2.2 (JVal.int 5) rfl

/-- C3 counterexample: the claim says any unrecognized kind is treated as
TEXT under the max rule, but `_merge_type` returns two EQUAL unrecognized
kinds unchanged (the `t1 == t2` early return fires before the index
lookup), so at `("FOO", "FOO")` it disagrees with the claimed
max-under-the-order operation. -/
theorem C3_counterexample :
    _merge_type "FOO" "FOO" ≠ mergeKindSpec "FOO" "FOO"
    ∧ _merge_type "FOO" "FOO" = "FOO"
    ∧ mergeKindSpec "FOO" "FOO" = "TEXT" := by
  refine ⟨by decide, by decide, by decide⟩

/-- C3 (amended): on the recognized kinds BIGINT/DOUBLE/TEXT — and in fact
whenever the two arguments differ — the merge equals max under
`BIGINT < DOUBLE < TEXT` with unrecognized kinds indexed as TEXT; merging
an unrecognized kind with itself returns it unchanged instead.  For all
strings the operation is associative, commutative and idempotent, merging
BIGINT with DOUBLE yields DOUBLE, and merging anything with TEXT yields
TEXT (so a column that reached TEXT stays TEXT). -/
theorem C3_amended :
    (∀ t1 t2 : String, t1 ∈ TYPE_ORDER → t2 ∈ TYPE_ORDER →
        _merge_type t1 t2 = mergeKindSpec t1 t2)
    ∧ (∀ t1 t2 : String, t1 ≠ t2 → _merge_type t1 t2 = mergeKindSpec t1 t2)
    ∧ (∀ t1 t2 t3 : String,
        _merge_type (_merge_type t1 t2) t3 = _merge_type t1 (_merge_type t2 t3))
    ∧ (∀ t1 t2 : String, _merge_type t1 t2 = _merge_type t2 t1)
    ∧ (∀ t : String, _merge_type t t = t)
    ∧ _merge_type "BIGINT" "DOUBLE" = "DOUBLE"
    ∧ (∀ t : String, _merge_type t "TEXT" = "TEXT" ∧ _merge_type "TEXT" t = "TEXT") := by
  refine ⟨?_, ?_, merge_type_assoc, merge_type_comm, merge_type_self, by decide,
    fun t => ⟨merge_type_text_right t, merge_type_text_left t⟩⟩
  · intro t1 t2 h1 h2
    rcases (mem_TYPE_ORDER_iff t1).mp h1 with h | h | h <;>
      rcases (mem_TYPE_ORDER_iff t2).mp h2 with h2a | h2a | h2a <;>
        subst h <;> subst h2a <;> decide
  · intro t1 t2 h
    exact merge_type_ne t1 t2 h

/-- C3 witness: the amended theorem applied at the concrete recognized pair
(BIGINT, TEXT), and at the distinct pair (DOUBLE, TEXT). -/
theorem C3_amended_witness :
    _merge_type "BIGINT" "TEXT" = mergeKindSpec "BIGINT" "TEXT"
    ∧ _merge_type "DOUBLE" "TEXT" = mergeKindSpec "DOUBLE" "TEXT" :=
  ⟨C3_amended.1 "BIGINT" "TEXT" (by decide) (by decide),
   C3_amended.2.1 "DOUBLE" "TEXT" (by decide)⟩

/-- C4: for a mapping payload the flattener row's field set is
`{record_id} ∪ keys(payload)`, and `record_id` holds the top-level key
unless the payload itself binds `record_id`, whose (last) value then wins
— insertion is key-first, then payload-merge. -/
theorem C4_flatten_mapping (k : String) (kvs : List (String × JVal)) :
    (rowKeys (buildRow k (JVal.obj kvs))).toFinset =
        insert "record_id" (rowKeys kvs).toFinset
    ∧ dictGet (buildRow k (JVal.obj kvs)) "record_id" =
        some ((assocLast kvs "record_id").getD (JVal.str k)) := by
  constructor
  · ext x
    simp only [List.mem_toFinset, Finset.mem_insert]
    exact mem_rowKeys_buildRow_obj k kvs x
  · exact dictGet_buildRow_obj_record_id k kvs

/-- C5: for a non-mapping payload the flattener row is exactly
`{record_id: key, data: payload}`; end to end, a structured payload such as
`[1, 2, 3]` is stored in `data` as its JSON text and the `data` column is
typed TEXT. -/
theorem C5_flatten_nonmapping :
    (∀ (k : String) (payload : JVal), isDict payload = false →
        buildRow k payload = [("record_id", JVal.str k), ("data", payload)])
    ∧ runTable "queuedata" [("q1", JVal.arr [JVal.int 1, JVal.int 2, JVal.int 3])] =
        some (Table.mk [("record_id", "TEXT"), ("data", "TEXT")]
          [[("record_id", Cell.str "q1"), ("data", Cell.str "[1, 2, 3]")]]) := by
  constructor
  · intro k payload h
    cases payload <;> first | rfl | (exfalso; simp [isDict] at h)
  · rfl

/-- C5 witness: the non-mapping branch at the concrete payload `7`. -/
theorem C5_flatten_nonmapping_witness :
    buildRow "q1" (JVal.int 7) = [("record_id", JVal.str "q1"), ("data", JVal.int 7)] :=
  C5_flatten_nonmapping.1 "q1" (JVal.int 7) rfl

/-- C7: a parsed top-level value that is not a mapping makes `main` fail
with the schema-violation error, for every database state and table name —
the error is raised before `dict_to_duckdb` runs, so no table is created
or modified. -/
theorem C7_schema_violation (data : JVal) (db : DB) (t : String) (h : isDict data = false) :
    mainLoad data db t = Except.error (LoadError.SchemaViolation
      "Input JSON must be a top-level dictionary of \x7brecord_id: \x7b ...row... \x7d\x7d.") := by
  cases data <;> first | rfl | (exfalso; simp [isDict] at h)

/-- C7 witness: the schema violation at the concrete top-level array `[]`. -/
theorem C7_schema_violation_witness :
    mainLoad (JVal.arr []) [] "queuedata" = Except.error (LoadError.SchemaViolation
      "Input JSON must be a top-level dictionary of \x7brecord_id: \x7b ...row... \x7d\x7d.") :=
  C7_schema_violation (JVal.arr []) [] "queuedata" rfl

/-- C8: loading the empty object succeeds on any database and leaves the
table existing with a single `record_id TEXT` column and zero rows; in
general `_insert_rows` on an empty row list is the identity on the
database (insertion is skipped). -/
theorem C8_empty_input (db : DB) (t : String) :
    (∃ db2 : DB, dict_to_duckdb db t [] = Except.ok db2 ∧
        dictGet db2 t = some (Table.mk [("record_id", "TEXT")] []))
    ∧ _insert_rows db t [] = Except.ok db := by
  constructor
  · exact ⟨dictInsert db t (Table.mk [("record_id", "TEXT")] []), rfl,
      dictGet_dictInsert_self db t _⟩
  · rfl

/-- C9: the destination table a successful run leaves behind depends only
on the input, so running twice with the same input, database and table
name succeeds again and leaves the very same table — the second run
replaces the first rather than appending to it. -/
theorem C9_idempotent (db db1 : DB) (t : String) (d : List (String × JVal))
    (h : dict_to_duckdb db t d = Except.ok db1) :
    ∃ db2 : DB, dict_to_duckdb db1 t d = Except.ok db2 ∧
      dictGet db2 t = dictGet db1 t := by
  rw [dict_to_duckdb_eq_pureRun, pureRun_ok] at h
  simp only [Except.map] at h
  injection h with h
  refine ⟨dictInsert db1 t
    (Table.mk (finalSchema d) (storedRows (finalSchema d) (finalRows d))), ?_, ?_⟩
  · rw [dict_to_duckdb_eq_pureRun, pureRun_ok]
    rfl
  · rw [dictGet_dictInsert_self, ← h, dictGet_dictInsert_self]

/-- C9 witness: a concrete run on one record, rerun on its own output. -/
theorem C9_idempotent_witness :
    ∃ db2 : DB,
      dict_to_duckdb
        [("queuedata", Table.mk [("record_id", "TEXT"), ("site", "TEXT")]
          [[("record_id", Cell.str "q1"), ("site", Cell.str "CERN")]])]
        "queuedata" [("q1", JVal.obj [("site", JVal.str "CERN")])] = Except.ok db2 ∧
      dictGet db2 "queuedata" =
        dictGet [("queuedata", Table.mk [("record_id", "TEXT"), ("site", "TEXT")]
          [[("record_id", Cell.str "q1"), ("site", Cell.str "CERN")]])] "queuedata" :=
  C9_idempotent [] _ "queuedata" [("q1", JVal.obj [("site", JVal.str "CERN")])] rfl

/-- C6: every successful run leaves a table whose schema binds `record_id`
to TEXT, whatever kinds the observed values had; and in the defensive case
where `record_id` is absent from the inferred schema, the fix-up still adds
a TEXT `record_id` column, pads every row by `setdefault`, and a row that
lacked the field ends up holding a null there. -/
theorem C6_record_id_invariant :
    (∀ (db : DB) (t : String) (d : List (String × JVal)) (db2 : DB),
        dict_to_duckdb db t d = Except.ok db2 →
        ∃ tb : Table, dictGet db2 t = some tb ∧ dictGet tb.cols "record_id" = some "TEXT")
    ∧ (∀ (s : Schema) (rows : List CRow), dictGet s "record_id" = none →
        dictGet (ensureRecordId s rows).1 "record_id" = some "TEXT"
        ∧ (ensureRecordId s rows).2 =
            rows.map (fun r => dictSetdefault r "record_id" Cell.null)
        ∧ ∀ r ∈ rows, dictGet r "record_id" = none →
            dictGet (dictSetdefault r "record_id" Cell.null) "record_id" = some Cell.null) := by
  constructor
  · intro db t d db2 h
    rw [dict_to_duckdb_eq_pureRun, pureRun_ok] at h
    simp only [Except.map] at h
    injection h with h
    refine ⟨Table.mk (finalSchema d) (storedRows (finalSchema d) (finalRows d)), ?_, ?_⟩
    · rw [← h]
      exact dictGet_dictInsert_self db t _
    · show dictGet (finalSchema d) "record_id" = some "TEXT"
      rw [finalSchema_eq]
      exact dictGet_dictInsert_self _ _ _
  · intro s rows h
    refine ⟨dictGet_ensureRecordId_fst s rows, ?_, ?_⟩
    · unfold ensureRecordId
      rw [h]
    · intro r _ hr
      rw [dictGet_dictSetdefault_of_none _ _ _ _ hr]
      rfl

/-- C6 witness: the invariant at a concrete empty run, and the defensive
fix-up at a schema and row without `record_id`. -/
theorem C6_record_id_invariant_witness :
    (∃ tb : Table,
        dictGet [("t2", Table.mk [("record_id", "TEXT")] ([] : List CRow))] "t2" = some tb
        ∧ dictGet tb.cols "record_id" = some "TEXT")
    ∧ dictGet (ensureRecordId [("x", "BIGINT")] [[("x", Cell.int 1)]]).1 "record_id" =
        some "TEXT" :=
  ⟨C6_record_id_invariant.1 [] "t2" [] [("t2", Table.mk [("record_id", "TEXT")] [])] rfl,
   (C6_record_id_invariant.2 [("x", "BIGINT")] [[("x", Cell.int 1)]] rfl).1⟩

theorem rawSchema_head (p : String × JVal) (rest : List (String × JVal)) :
    rawSchema (p :: rest) ≠ [] ∧
      (rawSchema (p :: rest)).head?.map Prod.fst = some "record_id" := by
  obtain ⟨v, tail, hb⟩ := buildRow_exists_cons p.1 p.2
  have hr : rawSchema (p :: rest) =
      List.foldl _infer_schema_row (_infer_schema_row [] (buildRow p.1 p.2))
        (buildRows rest) := rfl
  have hrow : _infer_schema_row [] (buildRow p.1 p.2) =
      _infer_schema_row [("record_id", (_to_cell_value v).2)] tail := by
    rw [hb]
    rfl
  have hne : _infer_schema_row [("record_id", (_to_cell_value v).2)] tail ≠ [] :=
    infer_row_ne_nil tail _ (by simp)
  constructor
  · rw [hr, hrow]
    exact infer_fold_ne_nil (buildRows rest) _ hne
  · rw [hr, hrow, infer_fold_head_key (buildRows rest) _ hne,
      infer_row_head_key tail _ (by simp)]
    rfl

theorem finalSchema_head (d : List (String × JVal)) :
    (finalSchema d).head? = some ("record_id", "TEXT") := by
  rw [finalSchema_eq]
  cases d with
  | nil => rfl
  | cons p rest =>
    obtain ⟨hne, hhk⟩ := rawSchema_head p rest
    cases hs : rawSchema (p :: rest) with
    | nil => exact absurd hs hne
    | cons q tl =>
      obtain ⟨qk, qv⟩ := q
      rw [hs] at hhk
      simp only [List.head?_cons, Option.map_some'] at hhk
      obtain rfl : qk = "record_id" := by injection hhk
      rw [dictInsert_cons_self]
      rfl

/-- C10: `record_id` is the first entry of the final schema and therefore
the first (and TEXT-typed) column of the created table, for every input:
each row starts with `record_id`, schema inference preserves the head key,
and the defensive fix-up only adds `record_id` to an empty schema. -/
theorem C10_record_id_first_column (db : DB) (t : String) (d : List (String × JVal))
    (db2 : DB) (h : dict_to_duckdb db t d = Except.ok db2) :
    ∃ tb : Table, dictGet db2 t = some tb ∧
      tb.cols.head? = some ("record_id", "TEXT") := by
  rw [dict_to_duckdb_eq_pureRun, pureRun_ok] at h
  simp only [Except.map] at h
  injection h with h
  refine ⟨Table.mk (finalSchema d) (storedRows (finalSchema d) (finalRows d)), ?_, ?_⟩
  · rw [← h]
    exact dictGet_dictInsert_self db t _
  · exact finalSchema_head d

theorem forall2_storedRows (fs : Schema) (g : Row → CRow) (l : List Row)
    (hg : ∀ (r : Row) (c : String), c ∉ rowKeys r →
      dictGet (g r) c = none ∨ dictGet (g r) c = some Cell.null) :
    List.Forall₂ (fun (r : Row) (sr : CRow) =>
        ∀ c ∈ rowKeys fs, c ∉ rowKeys r → dictGet sr c = some Cell.null)
      l (storedRows fs (l.map g)) := by
  cases l with
  | nil => exact List.Forall₂.nil
  | cons r rs =>
    simp only [List.map_cons, storedRows]
    rw [List.map_map]
    have hz : storedRow fs (rowKeys (g r)) (tupleFor (rowKeys (g r)) (g r)) ::
        List.map ((fun r2 => storedRow fs (rowKeys (g r)) (tupleFor (rowKeys (g r)) r2)) ∘ g) rs =
        List.map (fun x => storedRow fs (rowKeys (g r)) (tupleFor (rowKeys (g r)) (g x)))
          (r :: rs) := rfl
    rw [hz, List.forall₂_map_right_iff, List.forall₂_same]
    intro r2 _ c hcfs hcr
    exact dictGet_storedRow_null fs _ (g r2) c hcfs (hg r2 c hcr)

/-- C1 counterexample: at the empty input object the run still creates a
`record_id TEXT` column, so the final table's column set (`{record_id}`)
is NOT the union of the field names observed across the zero rows (`∅`),
refuting the claim as universally stated. -/
theorem C1_counterexample :
    runTable "queuedata" [] = some (Table.mk [("record_id", "TEXT")] [])
    ∧ observedFields [] = ∅
    ∧ ¬ ((colNames (Table.mk [("record_id", "TEXT")] ([] : List CRow))).toFinset =
          observedFields []) := by
  refine ⟨rfl, rfl, ?_⟩
  decide

/-- C1 (amended): for every input the final table's column set is the union
of all observed field names together with `record_id` (the fix-up keeps
`record_id` even for an empty input; on a nonempty input every row already
contains it, so the set equals the plain union there); and for every row,
every column of the table absent from that row's own key set is stored as
null — via the lookup-with-default over the row for columns named by the
bulk insert, and as the database NULL default for the rest. -/
theorem C1_amended (db : DB) (t : String) (d : List (String × JVal)) (db2 : DB)
    (h : dict_to_duckdb db t d = Except.ok db2) :
    ∃ tb : Table, dictGet db2 t = some tb ∧
      (colNames tb).toFinset = insert "record_id" (observedFields d) ∧
      List.Forall₂ (fun (r : Row) (sr : CRow) =>
          ∀ c ∈ colNames tb, c ∉ rowKeys r → dictGet sr c = some Cell.null)
        (buildRows d) tb.rows := by
  rw [dict_to_duckdb_eq_pureRun, pureRun_ok] at h
  simp only [Except.map] at h
  injection h with h
  refine ⟨Table.mk (finalSchema d) (storedRows (finalSchema d) (finalRows d)), ?_, ?_, ?_⟩
  · rw [← h]
    exact dictGet_dictInsert_self db t _
  · ext x
    simp only [colNames, List.mem_toFinset, Finset.mem_insert]
    rw [show rowKeys (Table.mk (finalSchema d)
        (storedRows (finalSchema d) (finalRows d))).cols = rowKeys (finalSchema d) from rfl,
      mem_rowKeys_finalSchema d x, mem_observedFields d x]
  · rcases finalRows_eq d with he | he
    · rw [he]
      exact forall2_storedRows (finalSchema d) coerceRow (buildRows d)
        (fun r c hc => Or.inl (dictGet_fixedRow_null r c hc).1)
    · rw [he]
      exact forall2_storedRows (finalSchema d)
        (fun r => dictSetdefault (coerceRow r) "record_id" Cell.null) (buildRows d)
        (fun r c hc => (dictGet_fixedRow_null r c hc).2 Cell.null)

/-- C1 witness: the amended statement at the concrete empty input. -/
theorem C1_amended_witness :
    ∃ tb : Table,
      dictGet [("t", Table.mk [("record_id", "TEXT")] ([] : List CRow))] "t" = some tb ∧
      (colNames tb).toFinset = insert "record_id" (observedFields []) ∧
      List.Forall₂ (fun (r : Row) (sr : CRow) =>
          ∀ c ∈ colNames tb, c ∉ rowKeys r → dictGet sr c = some Cell.null)
        (buildRows []) tb.rows :=
  C1_amended [] "t" [] [("t", Table.mk [("record_id", "TEXT")] [])] rfl

/-- C10 witness: the first column at a concrete one-record input. -/
theorem C10_record_id_first_column_witness :
    ∃ tb : Table,
      dictGet [("queuedata", Table.mk [("record_id", "TEXT"), ("capacity", "BIGINT")]
        [[("record_id", Cell.str "q1"), ("capacity", Cell.int 100)]])] "queuedata" = some tb
      ∧ tb.cols.head? = some ("record_id", "TEXT") :=
  C10_record_id_first_column [] "queuedata" [("q1", JVal.obj [("capacity", JVal.int 100)])]
    [("queuedata", Table.mk [("record_id", "TEXT"), ("capacity", "BIGINT")]
      [[("record_id", Cell.str "q1"), ("capacity", Cell.int 100)]])] rfl

end JsonToDuckdb
